import Mathlib

/-!
Verification development for the photo sync server (Go sources under
`server_cmd/`).  The definitions below are a shallow embedding of the
per-connection TCP message handler (`handleTCPConnection`), the thumbnail
generator (`generateThumbnails`), the catalog queries
(`countPhotosInDir`, `buildThumbsJSONPayloadPaged`), the UDP discovery
responder (`startUDPServer`) and a small interleaving model of the
goroutines spawned by the sync-complete handler.  External collaborators
(image codecs, ImageMagick, ffmpeg, `encoding/json`) are modelled as
explicit environment parameters, exactly as the specification treats
them (collaborator interfaces); all control flow, naming, sanitization
and dispatch logic is translated from the Go source.
-/

namespace PhotoSync

/-- A byte string; each element is a byte value (kept below 256 by the
operations that build them). -/
abbrev Bytes := List Nat

/-- Bytes of an ASCII string (Go `[]byte(s)`; the strings the server
builds are ASCII, so code-point = byte). -/
def strBytes (s : String) : Bytes := s.data.map Char.toNat

/-- Go `string(b)` for the payloads the server interprets as text
(modelled code-point-per-byte; the server only builds directory names
and ACK bodies from them). -/
def strOfBytes (b : Bytes) : String := String.mk (b.map fun n => Char.ofNat (n % 256))

/-- Go `binary.BigEndian.PutUint32` of `uint32(n)` (wraps modulo 2^32). -/
def be32 (n : Nat) : Bytes :=
  let m := n % 2 ^ 32
  [m / 2 ^ 24 % 256, m / 2 ^ 16 % 256, m / 2 ^ 8 % 256, m % 256]

/-- Go `strings.ToLower` restricted to ASCII (the extensions and media
tokens the server lowercases are ASCII). -/
def goToLower (s : String) : String :=
  String.mk (s.data.map fun c =>
    if 'A' ≤ c ∧ c ≤ 'Z' then Char.ofNat (c.toNat + 32) else c)

/-- Character class of Go `unicode.IsSpace` (as used by
`strings.TrimSpace` in `startUDPServer`). -/
def isGoSpace (c : Char) : Bool :=
  c = ' ' ∨ c = '\t' ∨ c = '\n' ∨ c = Char.ofNat 11 ∨ c = Char.ofNat 12 ∨
    c = '\r' ∨ c = Char.ofNat 133 ∨ c = Char.ofNat 160

/-- Go `strings.TrimSpace`. -/
def goTrimSpace (s : String) : String :=
  String.mk (((s.data.dropWhile isGoSpace).reverse.dropWhile isGoSpace).reverse)

/-- Go `strings.HasPrefix` (byte-wise; modelled on the character
list). -/
def strStartsWith (s pre : String) : Bool :=
  decide (s.data.take pre.data.length = pre.data)

/-- Go `strings.HasSuffix` (byte-wise; modelled on the character
list). -/
def goEndsWith (s suf : String) : Bool :=
  decide (suf.data.length ≤ s.data.length) &&
    decide (s.data.drop (s.data.length - suf.data.length) = suf.data)

/-- Drop the first `n` characters (Go slicing `s[n:]` on ASCII
strings). -/
def strDrop (s : String) (n : Nat) : String := String.mk (s.data.drop n)

/-- Go `strings.TrimSuffix` (strips `suf` only on an exact match). -/
def goTrimSuffix (s suf : String) : String :=
  if goEndsWith s suf then String.mk (s.data.take (s.data.length - suf.data.length)) else s

/-- Go `strings.TrimPrefix(s, ".")` as used on extensions. -/
def trimDot (s : String) : String :=
  if strStartsWith s "." then strDrop s 1 else s

/-- Go `strings.ContainsAny(s, "/\\")` — the sanitization test applied
to the `media` token in the direct-upload handler. -/
def containsSep (s : String) : Bool :=
  s.data.any fun c => c = '/' ∨ c = '\\'

/-- Go `filepath.Join` of a directory and one further component
(modelled as plain concatenation; none of the paths the server joins
need cleaning). -/
def goJoin (dir name : String) : String := dir ++ "/" ++ name

/-- Helper for `filepathExt`: walk the reversed character list,
accumulating until the last `'.'` (or a path separator / the start). -/
def filepathExtAux : List Char → List Char → String
  | [], _ => ""
  | c :: rest, acc =>
    if c = '/' then ""
    else if c = '.' then String.mk ('.' :: acc)
    else filepathExtAux rest (c :: acc)

/-- Go `filepath.Ext`: the suffix starting at the final dot in the
final path element; empty when there is no dot. -/
def filepathExt (s : String) : String := filepathExtAux s.data.reverse []

/-- Value of one character of the standard base64 alphabet. -/
def b64Val (c : Char) : Option Nat :=
  if 'A' ≤ c ∧ c ≤ 'Z' then some (c.toNat - 65)
  else if 'a' ≤ c ∧ c ≤ 'z' then some (c.toNat - 71)
  else if '0' ≤ c ∧ c ≤ '9' then some (c.toNat + 4)
  else if c = '+' then some 62
  else if c = '/' then some 63
  else none

/-- Decode base64 characters in groups of four with `'='` padding
allowed only in the final group (Go `base64.StdEncoding` grouping). -/
def decodeB64Groups : List Char → Option Bytes
  | [] => some []
  | c1 :: c2 :: c3 :: c4 :: rest =>
    match b64Val c1, b64Val c2 with
    | some v1, some v2 =>
      if c3 = '=' then
        if c4 = '=' ∧ rest = [] then some [(v1 * 4 + v2 / 16) % 256] else none
      else
        match b64Val c3 with
        | some v3 =>
          if c4 = '=' then
            if rest = [] then
              some [(v1 * 4 + v2 / 16) % 256, (v2 % 16 * 16 + v3 / 4) % 256]
            else none
          else
            match b64Val c4 with
            | some v4 =>
              (decodeB64Groups rest).map fun bs =>
                (v1 * 4 + v2 / 16) % 256 :: (v2 % 16 * 16 + v3 / 4) % 256 ::
                  (v3 % 4 * 64 + v4) :: bs
            | none => none
        | none => none
    | _, _ => none
  | _ => none

/-- Go `base64.StdEncoding.DecodeString`: newline characters are
ignored, the rest must be full four-character groups. -/
def goBase64Decode (s : String) : Option Bytes :=
  decodeB64Groups (s.data.filter fun c => c ≠ '\r' ∧ c ≠ '\n')

/-- Character of the standard base64 alphabet for a sextet value. -/
def b64Char (n : Nat) : Char :=
  if n < 26 then Char.ofNat (65 + n)
  else if n < 52 then Char.ofNat (97 + (n - 26))
  else if n < 62 then Char.ofNat (48 + (n - 52))
  else if n = 62 then '+' else '/'

/-- Encode bytes in groups of three (Go `base64.StdEncoding` layout,
with `'='` padding). -/
def encodeB64Groups : Bytes → List Char
  | [] => []
  | [b1] =>
    let v1 := b1 % 256
    [b64Char (v1 / 4), b64Char (v1 % 4 * 16), '=', '=']
  | [b1, b2] =>
    let v1 := b1 % 256
    let v2 := b2 % 256
    [b64Char (v1 / 4), b64Char (v1 % 4 * 16 + v2 / 16), b64Char (v2 % 16 * 4), '=']
  | b1 :: b2 :: b3 :: rest =>
    let v1 := b1 % 256
    let v2 := b2 % 256
    let v3 := b3 % 256
    b64Char (v1 / 4) :: b64Char (v1 % 4 * 16 + v2 / 16) ::
      b64Char (v2 % 16 * 4 + v3 / 64) :: b64Char (v3 % 64) :: encodeB64Groups rest

/-- Go `base64.StdEncoding.EncodeToString`. -/
def goBase64Encode (bs : Bytes) : String := String.mk (encodeB64Groups bs)

/-! ### Filesystem model

The server works on one active directory at a time (`recvDir`).  `FS`
models that directory: its direct entries (as `os.ReadDir` lists them)
and the contents of its thumbnail subdirectory `subnails` (`none` when
the subdirectory does not exist).  Thumbnails are name/bytes pairs. -/

/-- One direct entry of the active directory (`os.DirEntry` plus the
file's bytes, which the generator reads for HEIC sniffing and which the
codec collaborators consume). -/
structure Entry where
  name : String
  isDir : Bool
  data : Bytes
deriving DecidableEq, Repr

/-- Contents of `<activeDir>/subnails`. -/
abbrev Thumbs := List (String × Bytes)

/-- The active directory: direct entries plus the `subnails`
subdirectory (`none` = absent). -/
structure FS where
  entries : List Entry
  subnails : Option Thumbs
deriving DecidableEq, Repr

/-- Whether a thumbnail file with this name exists (`os.Stat` on the
thumb path succeeding). -/
def hasName (t : Thumbs) (d : String) : Bool := t.any fun p => p.1 = d

/-- Write a regular file into the directory listing (`os.WriteFile`:
truncate-or-create). -/
def setFileEntries (es : List Entry) (name : String) (b : Bytes) : List Entry :=
  if es.any (fun e => e.name = name) then
    es.map fun e => if e.name = name then { e with data := b } else e
  else es ++ [⟨name, false, b⟩]

/-- File lookup in the directory listing. -/
def getFileEntry (es : List Entry) (name : String) : Option Bytes :=
  (es.find? fun e => e.name = name).map Entry.data

/-! ### Thumbnail generation (`generateThumbnails`, main.go:567) -/

/-- Collaborator environment for one generation pass.  Image
decode/scale/encode and the external converters are collaborators
(spec §6): each maps the source file's bytes to the produced thumbnail
bytes, or `none` on failure.  `createOk` models `os.Create` of the
destination path succeeding, `mkdirOk` models `os.MkdirAll` of the
`subnails` directory succeeding. -/
structure GenEnv where
  decodeImage : Bytes → Option Bytes
  convertHEIC : Bytes → Option Bytes
  videoThumb : Bytes → Option Bytes
  createOk : String → Bool
  mkdirOk : Bool

/-- HEIC sniffing from the first bytes of the file (main.go:600-609):
at least 12 bytes were read, bytes 4..8 are `"ftyp"` and bytes 8..12
are one of the known HEIC sub-type tags. -/
def sniffHEIC (b : Bytes) : Bool :=
  if 12 ≤ b.length then
    ((b.drop 4).take 4 = strBytes "ftyp" ∧
      ((b.drop 8).take 4 = strBytes "heic" ∨ (b.drop 8).take 4 = strBytes "heix" ∨
        (b.drop 8).take 4 = strBytes "mif1") : Bool)
  else false

/-- Body of the `for _, e := range entries` loop of `generateThumbnails`
(main.go:578-718) acting on the thumbnail directory contents.  The
pixel-level work (decode, 320-px scale, PNG/JPEG encode at quality 80)
is delegated to the `GenEnv` collaborators; the dispatch, the
`tbn-` skip, the exists-skip, the HEIC sniff routing, the
creation-marker skip and all naming are translated from the source. -/
def genEntryStep (env : GenEnv) (entries : List Entry) (thumbs : Thumbs) (e : Entry) :
    Thumbs :=
  if e.isDir then thumbs
  else if strStartsWith (goToLower e.name) "tbn-" then thumbs
  else
    let ext := goToLower (filepathExt e.name)
    if ext = ".jpg" ∨ ext = ".jpeg" ∨ ext = ".png" ∨ ext = ".heic" then
      let dest := "tbn-" ++ e.name
      if hasName thumbs dest then thumbs
      else
        match (if sniffHEIC e.data then env.convertHEIC e.data else env.decodeImage e.data) with
        | none => thumbs
        | some tb => if env.createOk dest then thumbs ++ [(dest, tb)] else thumbs
    else if ext = ".mp4" ∨ ext = ".mov" ∨ ext = ".m4v" ∨ ext = ".avi" ∨ ext = ".mkv" then
      let base := goTrimSuffix e.name ext
      if entries.any (fun m => m.name = "." ++ base ++ ".created") then thumbs
      else
        let dest := "tbn-" ++ base ++ ".jpg"
        if hasName thumbs dest then thumbs
        else
          match env.videoThumb e.data with
          | none => thumbs
          | some tb => thumbs ++ [(dest, tb)]
    else thumbs

/-- `generateThumbnails(parentDir)` (main.go:567): ensure the
`subnails` directory exists, then sweep the direct entries.  On
`MkdirAll` failure the function returns with an error before touching
anything. -/
def generateThumbnails (env : GenEnv) (fs : FS) : FS :=
  if env.mkdirOk then
    { fs with subnails := some (fs.entries.foldl (genEntryStep env fs.entries) (fs.subnails.getD [])) }
  else fs

/-- The on-disk path of the thumbnail directory
(`thumbDir := filepath.Join(parentDir, "subnails")`, main.go:568). -/
def thumbDirPath (parentDir : String) : String := goJoin parentDir "subnails"

/-- Thumbs-independent outcome of one loop iteration: the destination
name and content the entry would produce were the destination absent,
or `none` when the entry is skipped for a reason that does not depend
on the current thumbnail set (directory, `tbn-` name, unknown
extension, creation marker, collaborator failure). -/
def genEntryOutcome (env : GenEnv) (entries : List Entry) (e : Entry) :
    Option (String × Bytes) :=
  if e.isDir then none
  else if strStartsWith (goToLower e.name) "tbn-" then none
  else
    let ext := goToLower (filepathExt e.name)
    if ext = ".jpg" ∨ ext = ".jpeg" ∨ ext = ".png" ∨ ext = ".heic" then
      let dest := "tbn-" ++ e.name
      match (if sniffHEIC e.data then env.convertHEIC e.data else env.decodeImage e.data) with
      | none => none
      | some tb => if env.createOk dest then some (dest, tb) else none
    else if ext = ".mp4" ∨ ext = ".mov" ∨ ext = ".m4v" ∨ ext = ".avi" ∨ ext = ".mkv" then
      let base := goTrimSuffix e.name ext
      if entries.any (fun m => m.name = "." ++ base ++ ".created") then none
      else
        match env.videoThumb e.data with
        | none => none
        | some tb => some ("tbn-" ++ base ++ ".jpg", tb)
    else none

/-! ### Catalog queries (`countPhotosInDir`, `buildThumbsJSONPayloadPaged`) -/

/-- `countPhotosInDir(dir)` (main.go:850): count direct non-directory
entries with a recognized media extension.  (Inside the directory
branch the source additionally tests `EqualFold(name, "subnails")`;
both arms skip the entry, so directories are always skipped.) -/
def countPhotosInDir (fs : FS) : Nat :=
  fs.entries.foldl
    (fun count e =>
      if e.isDir then count
      else
        let ext := goToLower (filepathExt e.name)
        if ext = ".jpg" ∨ ext = ".jpeg" ∨ ext = ".png" ∨ ext = ".mp4" ∨ ext = ".mov" ∨
            ext = ".m4v" ∨ ext = ".avi" ∨ ext = ".mkv" then count + 1
        else count)
    0

/-- Media count as the specification describes it (`count(dir)` in spec
§4.5): the number of recognized-extension entries currently present in
the thumbnail directory, or 0 if that directory is absent.  Stated from
the spec's words only, for comparison with `countPhotosInDir`. -/
def specThumbnailCount (fs : Option FS) : Nat :=
  match fs with
  | none => 0
  | some fs =>
    match fs.subnails with
    | none => 0
    | some t =>
      (t.filter fun p =>
        let ext := goToLower (filepathExt p.1)
        ext = ".jpg" ∨ ext = ".jpeg" ∨ ext = ".png").length

/-- One record of the thumbnail-list reply (`photoItem`, main.go:795). -/
structure PhotoItem where
  id : String
  data : String
  media : String
deriving DecidableEq, Repr

/-- Build one reply record from a thumbnail file name
(main.go:805-844): strip the extension and the `tbn-` marker for the
id, base64-encode the thumbnail bytes, and report media `"video"` when
a sibling original with a recognized video extension exists. -/
def photoItemOfThumb (fs : FS) (t : Thumbs) (name : String) : PhotoItem :=
  let ext := goToLower (filepathExt name)
  let content := ((t.find? fun p => p.1 = name).map Prod.snd).getD []
  let base0 := goTrimSuffix name ext
  let base := if strStartsWith (goToLower base0) "tbn-" then strDrop base0 4 else base0
  let media0 := trimDot ext
  let media1 := if media0 = "jpeg" then "jpg" else media0
  let isVideo :=
    [".mp4", ".mov", ".m4v", ".avi", ".mkv"].any fun v =>
      fs.entries.any fun e => e.name = base ++ v
  { id := base
    data := goBase64Encode content
    media := if isVideo then "video" else media1 }

/-- The names eligible for listing: non-directory `subnails` entries
with a `.jpg`/`.jpeg`/`.png` extension (main.go:766-775). -/
def thumbListNames (t : Thumbs) : List String :=
  (t.map Prod.fst).filter fun n =>
    let ext := goToLower (filepathExt n)
    ext = ".jpg" ∨ ext = ".jpeg" ∨ ext = ".png"

/-- The eligible names in the order the reply uses: Go
`sort.SliceStable(names, names[i] < names[j])`, modelled by a stable
insertion sort under `≤`. -/
def sortedThumbNames (t : Thumbs) : List String :=
  (thumbListNames t).insertionSort (· ≤ ·)

/-- Two's-complement wrapping of Go `int` arithmetic (64-bit `int`):
the result of `+` and `*` is reduced modulo 2^64 into
`[-2^63, 2^63)`. -/
def wrap64 (n : Int) : Int := (n + 2 ^ 63) % 2 ^ 64 - 2 ^ 63

/-- `buildThumbsJSONPayloadPaged(dir, pageIndex, pageSize)`
(main.go:755): stable sort of the eligible names, pagination clamps
(`pageIndex < 0 → 0`, `pageSize ≤ 0 → 100`), then
`start := pageIndex * pageSize` and `end := start + pageSize` in
wrapping Go `int` arithmetic, the `end` clamp, and the slice
`names[start:end]` with one record per name of the page.  The reply is
modelled as the record list (the `json.Marshal` byte rendering is a
collaborator).  A missing `subnails` directory yields the empty list,
as does the handler's error path.  `none` models the Go slice
expression panicking (`start`/`end` outside `0 ≤ start ≤ end`), which
no `recover` catches: the process dies. -/
def buildThumbsJSONPayloadPaged (fs : Option FS) (pageIndex pageSize : Int) :
    Option (List PhotoItem) :=
  match fs with
  | none => some []
  | some fs =>
    match fs.subnails with
    | none => some []
    | some t =>
      let sorted := sortedThumbNames t
      let pi := if pageIndex < 0 then 0 else pageIndex
      let ps := if pageSize ≤ 0 then 100 else pageSize
      let start := wrap64 (pi * ps)
      if start ≥ (sorted.length : Int) then some []
      else
        let stop0 := wrap64 (start + ps)
        let stop := if stop0 > (sorted.length : Int) then (sorted.length : Int) else stop0
        if 0 ≤ start ∧ start ≤ stop then
          some (((sorted.drop start.toNat).take (stop - start).toNat).map
            (photoItemOfThumb fs t))
        else none

/-! ### Per-connection message handling (`handleTCPConnection`, main.go:161)

`handleTCPMessage` is the body of the receive loop for one decoded
frame header (type byte, big-endian length) and the payload bytes that
follow it on the stream.  `encoding/json` parsing and directory/file
I/O success are environment parameters. -/

/-- Media count as the handler computes it (main.go:236-240): the
`countPhotosInDir` result, or 0 when the directory read fails. -/
def dirMediaCount (fs : Option FS) : Nat :=
  match fs with
  | none => 0
  | some fs => countPhotosInDir fs

/-- Extension resolved from the `media` token of a direct upload
(main.go:389-393): lowercase, replaced with `"bin"` when empty or
containing a path separator. -/
def sanitizeMediaExt (media : String) : String :=
  let ext := goToLower media
  if containsSep ext ∨ ext = "" then "bin" else ext

/-- Final file name (relative to the receive directory) of a direct
upload (main.go:395-405): the id with the resolved extension appended,
unless the id already ends with it. -/
def uploadRelName (id media : String) : String :=
  let ext := sanitizeMediaExt media
  if goToLower (filepathExt id) = "." ++ ext then id else id ++ "." ++ ext

/-- Parsed direct-upload JSON (`{"id":...,"data":...,"media":...}`,
main.go:356; missing fields unmarshal to the empty string). -/
structure UploadObj where
  id : String
  data : String
  media : String
deriving DecidableEq, Repr

/-- Parsed thumbnail-list request JSON (`{pageIndex, pageSize}`,
main.go:280; missing fields unmarshal to 0). -/
structure PageReq where
  pageIndex : Int
  pageSize : Int
deriving DecidableEq, Repr

/-- Environment of a connection step: the `encoding/json` collaborator
for the two JSON payload shapes, and the outcomes of the directory and
file operations (`os.MkdirAll`, `os.WriteFile`), keyed by path. -/
structure ConnEnv where
  parseUpload : Bytes → Option UploadObj
  parsePage : Bytes → Option PageReq
  dirAt : String → FS
  mkdirAllOk : String → Bool
  mkdirParentOk : String → Bool
  writeOk : String → Bool

/-- Per-connection state: the configured base directory, the current
receive directory (replaced by SetPhoneName) and its contents (`none`
when the directory is unreadable). -/
structure ConnState where
  baseRecvDir : String
  recvDir : String
  fs : Option FS
deriving DecidableEq, Repr

/-- Body of a reply frame: raw bytes, or the thumbnail-record list
(whose JSON rendering is delegated to `json.Marshal`). -/
inductive MsgBody where
  | raw (b : Bytes)
  | photoList (l : List PhotoItem)
deriving DecidableEq, Repr

/-- A frame written back to the connection (type byte plus body). -/
structure OutMsg where
  type : Nat
  body : MsgBody
deriving DecidableEq, Repr

/-- What the loop iteration does to the connection: keep reading,
close, close after spawning `go generateThumbnails(dir)`
(main.go:202-210), or die from an unrecovered runtime panic (no
`recover` exists in the program, so a panic in the handler goroutine
kills the whole process and every connection with it). -/
inductive StepAct where
  | close
  | closeAndGen (dir : String)
  | cont
  | crash
deriving DecidableEq, Repr

/-- Result of handling one frame: the action, the updated session
state, the frames sent back, and how many payload bytes were read from
the stream. -/
structure StepOut where
  act : StepAct
  st : ConnState
  sent : List OutMsg
  payloadRead : Nat
deriving DecidableEq, Repr

/-- Outcome of the thumbnail-list branch: when the builder returns, the
type-8 reply frame is written and the loop continues (main.go:296-309);
when the slice expression panics, nothing is sent and the process dies
(the panic propagates out of the goroutine — no `recover` exists). -/
def mtlReply (st : ConnState) (length : Nat) : Option (List PhotoItem) → StepOut
  | some photos => ⟨.cont, st, [⟨8, .photoList photos⟩], length⟩
  | none => ⟨.crash, st, [], length⟩

/-- Handle one frame of the receive loop (main.go:178-432).  `msgType`
and `length` come from the 5-byte header; `payload` holds the next
`length` bytes available on the stream (read only by the branches that
reach a read in the source). -/
def handleTCPMessage (env : ConnEnv) (st : ConnState) (msgType length : Nat)
    (payload : Bytes) : StepOut :=
  if msgType ≠ 1 ∧ msgType ≠ 2 ∧ msgType ≠ 3 ∧ msgType ≠ 4 ∧ msgType ≠ 5 ∧ msgType ≠ 7 then
    -- unknown message type: close without draining (main.go:197-200)
    ⟨.close, st, [], 0⟩
  else if msgType = 3 then
    -- sync complete: spawn generation over recvDir, end the session (main.go:202-210)
    ⟨.closeAndGen st.recvDir, st, [], 0⟩
  else if msgType = 5 then
    -- media count: drain payload, reply 4-byte BE count (main.go:213-251)
    ⟨.cont, st, [⟨6, .raw (be32 (dirMediaCount st.fs))⟩], length⟩
  else if msgType = 7 then
    -- thumbnail list: drain payload, parse pagination, reply (main.go:254-310)
    let pq : Int × Int :=
      if length = 0 then (0, 100)
      else
        match env.parsePage payload with
        | none => (0, 100)
        | some r =>
          (if r.pageIndex ≥ 0 then r.pageIndex else 0,
           if r.pageSize > 0 then r.pageSize else 100)
    mtlReply st length (buildThumbsJSONPayloadPaged st.fs pq.1 pq.2)
  else if length = 0 then
    -- zero-length payload: skip the message (main.go:311-314)
    ⟨.cont, st, [], 0⟩
  else if length > 50 * 1024 * 1024 then
    -- oversized payload: close without reading (main.go:316-319)
    ⟨.close, st, [], 0⟩
  else if msgType = 4 then
    -- set phone name: recvDir := baseRecvDir/<payload>; close on MkdirAll error (main.go:342-353)
    let newDir := goJoin st.baseRecvDir (strOfBytes payload)
    if env.mkdirAllOk newDir then
      ⟨.cont, ⟨st.baseRecvDir, newDir, some (env.dirAt newDir)⟩, [], length⟩
    else ⟨.close, st, [], length⟩
  else
    -- direct upload, types 1 and 2 (main.go:355-432)
    match env.parseUpload payload with
    | none => ⟨.cont, st, [], length⟩
    | some obj =>
      if obj.id = "" ∨ obj.data = "" ∨ obj.media = "" then ⟨.cont, st, [], length⟩
      else
        match goBase64Decode obj.data with
        | none => ⟨.cont, st, [], length⟩
        | some fileBytes =>
          let relName := uploadRelName obj.id obj.media
          let fname := goJoin st.recvDir relName
          -- parent creation when the id carries path components
          -- (`filepath.Dir(fname) != recvDir` iff relName has a separator)
          if relName.data.contains '/' ∧ ¬ env.mkdirParentOk fname then
            ⟨.cont, st, [], length⟩
          else if env.writeOk fname then
            ⟨.cont,
              { st with fs := some ⟨setFileEntries ((st.fs.map FS.entries).getD []) relName fileBytes,
                  (st.fs.map FS.subnails).getD none⟩ },
              [⟨3, .raw (strBytes ("OK:" ++ obj.id))⟩], length⟩
          else ⟨.cont, st, [], length⟩

/-! ### UDP discovery responder (`startUDPServer`, main.go:478-516) -/

/-- Destination of a UDP send: back to the requester, or the subnet
broadcast address on the given port. -/
inductive UdpDest where
  | requester
  | broadcast (port : Nat)
deriving DecidableEq, Repr

/-- Handle one received datagram (main.go:486-515): the discovery
question gets the `photo_server` reply to both the requester and the
broadcast address on the requester's port; anything else is echoed
verbatim to the requester. -/
def handleUDPDatagram (serverName ip : String) (remotePort : Nat) (datagram : String) :
    List (UdpDest × String) :=
  if goTrimSpace datagram = "who is photo server?" then
    let response := "photo_server:" ++ serverName ++ ",IP:" ++ ip
    [(.requester, response), (.broadcast remotePort, response)]
  else [(.requester, datagram)]

/-! ### Interleaving model of generation-pass goroutines

Every sync-complete frame runs `go generateThumbnails(recvDir)`
(main.go:202-210).  `generateThumbnails` contains no lock acquisition,
no cancellation check and no shared coordination state (the source
declares no mutex and no cancellation handle in the TCP path), so the
spawned goroutines are scheduled independently.  The model below
captures exactly that: a pass is a directory plus the number of
directory entries it still has to process, and the scheduler may at any
time spawn a pass (a session's sync-complete), advance a pass by one
entry (one loop iteration of main.go:578), or retire a pass whose
entries are exhausted (the function returning). -/

/-- One in-flight generation pass: its directory and the entries its
loop has not yet processed. -/
structure GenPass where
  dir : String
  remaining : Nat
deriving DecidableEq, Repr

/-- Scheduler transitions over the list of in-flight passes.  `spawn`
is unconditional because the sync-complete handler starts the goroutine
without consulting any lock or in-flight state; `work` and `finish` are
unconditional for the same reason (the loop body takes no lock and
checks no cancellation token). -/
inductive GenStep : List GenPass → List GenPass → Prop
  | spawn (ps : List GenPass) (d : String) (n : Nat) :
      GenStep ps (ps ++ [⟨d, n⟩])
  | work (pre : List GenPass) (d : String) (n : Nat) (post : List GenPass) :
      GenStep (pre ++ ⟨d, n + 1⟩ :: post) (pre ++ ⟨d, n⟩ :: post)
  | finish (pre : List GenPass) (d : String) (post : List GenPass) :
      GenStep (pre ++ ⟨d, 0⟩ :: post) (pre ++ post)

/-- Pass lists reachable from the server's initial state (no pass in
flight). -/
inductive GenReach : List GenPass → Prop
  | init : GenReach []
  | step {ps ps' : List GenPass} : GenReach ps → GenStep ps ps' → GenReach ps'

/-! ### Chunked-video reassembler

Modelled from the spec: the chunked-upload state machine
(Start/Data/Complete message handling, spec §4.3 and §6) is absent from
the provided sources — the source defines no chunk message types and no
transfer map — so its per-transfer lifecycle is modelled from the
specification's words below and the chunked-upload claim is settled
against this model. -/

/-- Modelled from the spec: one in-progress chunked transfer
(spec §3 `ChunkedTransfer`): client-declared metadata, the
server-authoritative received count, and the bytes appended to the temp
file so far. -/
structure ChunkedTransfer where
  id : String
  totalSize : Nat
  chunkSize : Nat
  totalChunks : Nat
  receivedChunks : Nat
  tempData : Bytes
deriving DecidableEq, Repr

/-- The per-session map of active transfers. -/
abbrev TransferMap := List (String × ChunkedTransfer)

/-- Result of one reassembler message: updated map, updated directory
listing, the ACK body sent (`none` = ACK withheld), and whether the
connection closes (never, for these messages: all their failures are
message-recoverable per spec §7). -/
structure ChunkOut where
  transfers : TransferMap
  files : List Entry
  ack : Option String
  closes : Bool
deriving DecidableEq, Repr

/-- Modelled from the spec: **Start**(id, declaredTotalSize, chunkSize,
declaredTotalChunks) — allocate a fresh temp file, record the metadata,
ACK the fixed literal `"OK:START"` (spec §4.3, §6). -/
def chunkStart (m : TransferMap) (files : List Entry) (id : String)
    (totalSize chunkSize totalChunks : Nat) : ChunkOut :=
  ⟨(id, ⟨id, totalSize, chunkSize, totalChunks, 0, []⟩) :: m.filter (fun p => p.1 ≠ id),
    files, some "OK:START", false⟩

/-- Modelled from the spec: **Data**(id, chunkIndex, base64Payload) —
unknown id is a no-op warning; a payload that fails to decode is
dropped with the ACK withheld; otherwise the decoded bytes are appended
in arrival order, the received count grows, and the ACK body carries
the chunk index (spec §4.3, §6). -/
def chunkData (m : TransferMap) (files : List Entry) (id : String) (chunkIndex : Nat)
    (dataB64 : String) : ChunkOut :=
  match m.lookup id with
  | none => ⟨m, files, none, false⟩
  | some t =>
    match goBase64Decode dataB64 with
    | none => ⟨m, files, none, false⟩
    | some bs =>
      ⟨m.map (fun p => if p.1 = id then
          (id, { t with tempData := t.tempData ++ bs,
                        receivedChunks := t.receivedChunks + 1 }) else p),
        files, some ("OK:CHUNK:" ++ toString chunkIndex), false⟩

/-- Modelled from the spec: **Complete**(id, declaredTotalChunks) —
unknown id is a no-op; otherwise the reassembled bytes are finalized
under the active directory as `id` plus the default extension `mp4`
(not appended again when `id` already carries it), the transfer leaves
the map, and the ACK body is `"OK:" + id` (spec §4.3, §6; the declared
total is advisory only and a mismatch is logged, not fatal). -/
def chunkComplete (m : TransferMap) (files : List Entry) (id : String)
    (declaredTotalChunks : Nat) : ChunkOut :=
  match m.lookup id with
  | none => ⟨m, files, none, false⟩
  | some t =>
    let finalName := if goToLower (filepathExt id) = ".mp4" then id else id ++ ".mp4"
    ⟨m.filter (fun p => p.1 ≠ id), setFileEntries files finalName t.tempData,
      some ("OK:" ++ id), false⟩

/-- Deliver a list of Data messages for one id in arrival order,
collecting the transfer map, the directory listing and the ACK bodies
sent for each message. -/
def chunkDataList (m : TransferMap) (files : List Entry) (id : String) :
    List (Nat × String) → TransferMap × List Entry × List (Option String)
  | [] => (m, files, [])
  | c :: rest =>
    let o := chunkData m files id c.1 c.2
    let r := chunkDataList o.transfers o.files id rest
    (r.1, r.2.1, o.ack :: r.2.2)

/-- A connection-step environment whose collaborators all succeed
trivially (used to instantiate universally quantified statements at
concrete inputs). -/
def trivConnEnv : ConnEnv :=
  ⟨fun _ => none, fun _ => none, fun _ => ⟨[], none⟩, fun _ => true, fun _ => true,
    fun _ => true⟩

/-! ## Theorems -/

/-- C3 (amended): for every GetMediaCount frame the server replies with
one media-count-response frame (type 6) whose 4-byte big-endian payload
is the number of recognized-extension media files (images and videos)
directly under the active directory — not the thumbnails under the
thumbnail subdirectory — with 0 when the directory is unreadable; the
session state is unchanged, the connection stays open, and no
generation pass is spawned (the action is `cont`, never
`closeAndGen`). -/
theorem mediaCount_replies_fileCount (env : ConnEnv) (st : ConnState) (len : Nat)
    (payload : Bytes) :
    handleTCPMessage env st 5 len payload =
      ⟨.cont, st, [⟨6, .raw (be32 (dirMediaCount st.fs))⟩], len⟩ := rfl

/-- C3 (counterexample): a directory holding one photo and an empty
thumbnail subdirectory.  The claim says the reply payload equals the
thumbnail count (here 0); the handler replies with the media-file count
(here 1). -/
theorem mediaCount_not_thumbnailCount :
    (handleTCPMessage trivConnEnv
        ⟨"base", "base", some ⟨[⟨"a.jpg", false, []⟩], some []⟩⟩ 5 0 []).sent =
      [⟨6, .raw (be32 1)⟩] ∧
    specThumbnailCount (some ⟨[⟨"a.jpg", false, []⟩], some []⟩) = 0 ∧
    be32 1 ≠ be32 0 := by
  refine ⟨?_, ?_, ?_⟩ <;> decide

/-- C8: a UDP datagram whose text equals `"who is photo server?"`
after trimming surrounding whitespace is answered with
`"photo_server:<name>,IP:<ip>"` sent both to the requester and to the
subnet broadcast address on the requester's port; every other datagram
is echoed back verbatim to the requester. -/
theorem udpDiscovery_reply_or_echo (name ip : String) (port : Nat) (d : String) :
    (goTrimSpace d = "who is photo server?" →
      handleUDPDatagram name ip port d =
        [(.requester, "photo_server:" ++ name ++ ",IP:" ++ ip),
         (.broadcast port, "photo_server:" ++ name ++ ",IP:" ++ ip)]) ∧
    (goTrimSpace d ≠ "who is photo server?" →
      handleUDPDatagram name ip port d = [(.requester, d)]) := by
  constructor <;> intro h <;> simp [handleUDPDatagram, h]

/-- Witness for C8: the discovery question (with surrounding
whitespace) gets the two-destination reply; an arbitrary other datagram
is echoed. -/
theorem udpDiscovery_reply_or_echo_witness :
    handleUDPDatagram "srv" "10.0.0.2" 7799 " who is photo server?\n" =
      [(.requester, "photo_server:" ++ "srv" ++ ",IP:" ++ "10.0.0.2"),
       (.broadcast 7799, "photo_server:" ++ "srv" ++ ",IP:" ++ "10.0.0.2")] ∧
    handleUDPDatagram "srv" "10.0.0.2" 7799 "ping" = [(.requester, "ping")] :=
  ⟨(udpDiscovery_reply_or_echo "srv" "10.0.0.2" 7799 " who is photo server?\n").1 (by decide),
   (udpDiscovery_reply_or_echo "srv" "10.0.0.2" 7799 "ping").2 (by decide)⟩

/-- C9: a Data, DataAlt or SetPhoneName frame with declared length 0 is
skipped entirely: no payload byte is read, the state (active directory
and files) is unchanged, nothing is sent, no pass is spawned, and the
loop continues to the next header. -/
theorem zeroLength_skipsMessage (env : ConnEnv) (st : ConnState) (payload : Bytes)
    (t : Nat) (ht : t = 1 ∨ t = 2 ∨ t = 4) :
    handleTCPMessage env st t 0 payload = ⟨.cont, st, [], 0⟩ := by
  rcases ht with rfl | rfl | rfl <;> rfl

/-- Witness for C9 at type 1 on a concrete state. -/
theorem zeroLength_skipsMessage_witness :
    handleTCPMessage trivConnEnv ⟨"base", "base", none⟩ 1 0 [] =
      ⟨.cont, ⟨"base", "base", none⟩, [], 0⟩ :=
  zeroLength_skipsMessage trivConnEnv ⟨"base", "base", none⟩ [] 1 (Or.inl rfl)

/-- The wrap of a value already inside the 64-bit signed range is the
value itself. -/
theorem wrap64_eq_self (n : Int) (h1 : -(2 ^ 63) ≤ n) (h2 : n < 2 ^ 63) : wrap64 n = n := by
  unfold wrap64
  rw [Int.emod_eq_of_lt (by omega) (by omega)]
  omega

/-- The thumbnail-list branch for a non-zero length and an unparseable
payload takes the default page. -/
theorem handleTCP_msg7_parse_none (env : ConnEnv) (st : ConnState) (len : Nat)
    (payload : Bytes) (h0 : len ≠ 0) (hp : env.parsePage payload = none) :
    handleTCPMessage env st 7 len payload =
      mtlReply st len (buildThumbsJSONPayloadPaged st.fs 0 100) := by
  simp [handleTCPMessage, h0, hp]

/-- The thumbnail-list branch for a non-zero length and a parsed
payload clamps the requested page and consults the builder. -/
theorem handleTCP_msg7_parse_some (env : ConnEnv) (st : ConnState) (len : Nat)
    (payload : Bytes) (r : PageReq) (h0 : len ≠ 0)
    (hp : env.parsePage payload = some r) :
    handleTCPMessage env st 7 len payload =
      mtlReply st len
        (buildThumbsJSONPayloadPaged st.fs (if r.pageIndex ≥ 0 then r.pageIndex else 0)
          (if r.pageSize > 0 then r.pageSize else 100)) := by
  simp [handleTCPMessage, h0, hp]

/-- Every thumbnail-list frame is answered through `mtlReply` (the size
check never fires for it). -/
theorem handleTCP_msg7_shape (env : ConnEnv) (st : ConnState) (len : Nat)
    (payload : Bytes) :
    ∃ o, handleTCPMessage env st 7 len payload = mtlReply st len o := by
  by_cases h0 : len = 0
  · subst h0
    exact ⟨buildThumbsJSONPayloadPaged st.fs 0 100, rfl⟩
  · cases hp : env.parsePage payload with
    | none => exact ⟨_, handleTCP_msg7_parse_none env st len payload h0 hp⟩
    | some r => exact ⟨_, handleTCP_msg7_parse_some env st len payload r h0 hp⟩

/-- C10: a Data, DataAlt or SetPhoneName frame whose declared length
exceeds 50*1024*1024 closes the connection with no payload byte read,
no file written and the active directory unchanged; GetMediaCount and
MediaThumbList frames are dispatched before the size check and are not
subject to the limit — GetMediaCount still answers (`cont`), and the
MediaThumbList outcome (action, state and reply) is identical to its
outcome at any other non-zero length and is never the size-check
close. -/
theorem oversizedPayload_closes (env : ConnEnv) (st : ConnState) (len : Nat)
    (payload : Bytes) (h : 50 * 1024 * 1024 < len) :
    (∀ t, t = 1 ∨ t = 2 ∨ t = 4 →
      handleTCPMessage env st t len payload = ⟨.close, st, [], 0⟩) ∧
    (handleTCPMessage env st 5 len payload).act = .cont ∧
    (∀ len', len' ≠ 0 →
      (handleTCPMessage env st 7 len payload).act =
          (handleTCPMessage env st 7 len' payload).act ∧
        (handleTCPMessage env st 7 len payload).st =
          (handleTCPMessage env st 7 len' payload).st ∧
        (handleTCPMessage env st 7 len payload).sent =
          (handleTCPMessage env st 7 len' payload).sent) ∧
    (handleTCPMessage env st 7 len payload).act ≠ .close := by
  have h0 : len ≠ 0 := by omega
  refine ⟨?_, rfl, ?_, ?_⟩
  · intro t ht
    rcases ht with rfl | rfl | rfl <;> simp [handleTCPMessage, h0, h]
  · intro len' h0'
    cases hp : env.parsePage payload with
    | none =>
      rw [handleTCP_msg7_parse_none env st len payload h0 hp,
        handleTCP_msg7_parse_none env st len' payload h0' hp]
      cases buildThumbsJSONPayloadPaged st.fs 0 100 <;> exact ⟨rfl, rfl, rfl⟩
    | some r =>
      rw [handleTCP_msg7_parse_some env st len payload r h0 hp,
        handleTCP_msg7_parse_some env st len' payload r h0' hp]
      cases buildThumbsJSONPayloadPaged st.fs (if r.pageIndex ≥ 0 then r.pageIndex else 0)
          (if r.pageSize > 0 then r.pageSize else 100) <;> exact ⟨rfl, rfl, rfl⟩
  · obtain ⟨o, ho⟩ := handleTCP_msg7_shape env st len payload
    rw [ho]
    cases o <;> simp [mtlReply]

/-- Witness for C10 at type 4, one byte over the limit. -/
theorem oversizedPayload_closes_witness :
    handleTCPMessage trivConnEnv ⟨"base", "base", none⟩ 4 (50 * 1024 * 1024 + 1) [] =
      ⟨.close, ⟨"base", "base", none⟩, [], 0⟩ :=
  (oversizedPayload_closes trivConnEnv ⟨"base", "base", none⟩ (50 * 1024 * 1024 + 1) []
      (by omega)).1 4 (Or.inr (Or.inr rfl))

/-- Writing a file and reading it back under the same name yields the
written bytes. -/
theorem getFileEntry_setFileEntries (es : List Entry) (n : String) (b : Bytes) :
    getFileEntry (setFileEntries es n b) n = some b := by
  induction es with
  | nil => simp [setFileEntries, getFileEntry]
  | cons e es ih =>
    by_cases he : e.name = n
    · simp [setFileEntries, getFileEntry, he]
    · by_cases ha : es.any fun x => x.name = n
      · simp only [setFileEntries, getFileEntry, List.any_cons, he, decide_False,
          Bool.false_or, ha, if_true] at ih ⊢
        simpa [he] using ih
      · simp only [setFileEntries, getFileEntry, List.any_cons, he, decide_False,
          Bool.false_or, ha, if_false] at ih ⊢
        simpa [he] using ih

/-- C6: a direct-upload frame (type 1 or 2) whose parsed JSON has
non-empty id, data and media fields and base64-decodable data writes
exactly the decoded bytes to `uploadRelName id media` under the active
directory (media token lowercased, replaced by `"bin"` when empty or
containing a path separator, and not appended again when the id already
ends with it) and answers with an ACK frame whose body is
`"OK:" ++ id`; when a required field is missing or empty nothing is
written, no ACK is sent, and the loop continues. -/
theorem directUpload_writes_and_acks (env : ConnEnv) (st : ConnState) (t len : Nat)
    (payload : Bytes) (ht : t = 1 ∨ t = 2) (h0 : len ≠ 0)
    (hmax : ¬ 50 * 1024 * 1024 < len) :
    (∀ obj bytes, env.parseUpload payload = some obj →
      obj.id ≠ "" → obj.data ≠ "" → obj.media ≠ "" →
      goBase64Decode obj.data = some bytes →
      env.mkdirParentOk (goJoin st.recvDir (uploadRelName obj.id obj.media)) = true →
      env.writeOk (goJoin st.recvDir (uploadRelName obj.id obj.media)) = true →
      handleTCPMessage env st t len payload =
        ⟨.cont,
          { st with fs := some ⟨setFileEntries ((st.fs.map FS.entries).getD [])
              (uploadRelName obj.id obj.media) bytes, (st.fs.map FS.subnails).getD none⟩ },
          [⟨3, .raw (strBytes ("OK:" ++ obj.id))⟩], len⟩ ∧
      getFileEntry (setFileEntries ((st.fs.map FS.entries).getD [])
          (uploadRelName obj.id obj.media) bytes) (uploadRelName obj.id obj.media)
        = some bytes) ∧
    (∀ obj, env.parseUpload payload = some obj →
      (obj.id = "" ∨ obj.data = "" ∨ obj.media = "") →
      handleTCPMessage env st t len payload = ⟨.cont, st, [], len⟩) := by
  constructor
  · intro obj bytes hparse hid hdata hmedia hdec hmk hwrite
    refine ⟨?_, getFileEntry_setFileEntries _ _ _⟩
    rcases ht with rfl | rfl <;>
      simp [handleTCPMessage, h0, hmax, hparse, hid, hdata, hmedia, hdec, hmk, hwrite]
  · intro obj hparse hempty
    rcases ht with rfl | rfl <;> rcases hempty with h | h | h <;>
      simp [handleTCPMessage, h0, hmax, hparse, h]

/-- Witness for C6: the spec §8 direct-upload scenario shape — id
`"img001"`, media `"png"`, data `base64("AABB")` — stores
`img001.png` with the decoded bytes and ACKs `"OK:img001"`. -/
theorem directUpload_writes_and_acks_witness :
    handleTCPMessage
        ⟨fun _ => some ⟨"img001", "QUFCQg==", "png"⟩, fun _ => none, fun _ => ⟨[], none⟩,
          fun _ => true, fun _ => true, fun _ => true⟩
        ⟨"base", "base", some ⟨[], none⟩⟩ 1 4 [1, 2, 3, 4] =
      ⟨.cont, ⟨"base", "base", some ⟨[⟨"img001.png", false, [65, 65, 66, 66]⟩], none⟩⟩,
        [⟨3, .raw (strBytes ("OK:" ++ "img001"))⟩], 4⟩ ∧
    getFileEntry [⟨"img001.png", false, [65, 65, 66, 66]⟩] "img001.png"
      = some [65, 65, 66, 66] := by
  have h := (directUpload_writes_and_acks
      ⟨fun _ => some ⟨"img001", "QUFCQg==", "png"⟩, fun _ => none, fun _ => ⟨[], none⟩,
        fun _ => true, fun _ => true, fun _ => true⟩
      ⟨"base", "base", some ⟨[], none⟩⟩ 1 4 [1, 2, 3, 4] (Or.inl rfl) (by decide)
      (by decide)).1 ⟨"img001", "QUFCQg==", "png"⟩ [65, 65, 66, 66] rfl (by decide)
      (by decide) (by decide) (by decide) rfl rfl
  refine ⟨?_, ?_⟩
  · have h1 := h.1
    simpa using h1
  · have h2 := h.2
    simpa using h2

/-- When the clamped page arithmetic stays inside the 64-bit signed
range (no wrap for `start` and `start + pageSize`), the paged reply is
the slice of the sorted name list mapped to records. -/
theorem buildThumbs_eq_slice (fs : FS) (t : Thumbs) (h : fs.subnails = some t)
    (pi ps : Int)
    (hno : (if pi < 0 then 0 else pi) * (if ps ≤ 0 then 100 else ps) +
        (if ps ≤ 0 then 100 else ps) < 2 ^ 63) :
    buildThumbsJSONPayloadPaged (some fs) pi ps =
      some ((((sortedThumbNames t).drop
          ((if pi < 0 then 0 else pi) * (if ps ≤ 0 then 100 else ps)).toNat).take
        (if ps ≤ 0 then 100 else ps).toNat).map (photoItemOfThumb fs t)) := by
  simp only [buildThumbsJSONPayloadPaged, h]
  have hpi : 0 ≤ (if pi < 0 then 0 else pi) := by
    by_cases hc : pi < 0 <;> simp [hc] <;> omega
  have hps : 1 ≤ (if ps ≤ 0 then 100 else ps) := by
    by_cases hc : ps ≤ 0 <;> simp [hc] <;> omega
  set piC := if pi < 0 then 0 else pi with hpiC
  set psC := if ps ≤ 0 then 100 else ps with hpsC
  have hprod : 0 ≤ piC * psC := mul_nonneg hpi (by omega)
  have hw1 : wrap64 (piC * psC) = piC * psC := wrap64_eq_self _ (by omega) (by omega)
  have hw2 : wrap64 (piC * psC + psC) = piC * psC + psC :=
    wrap64_eq_self _ (by omega) (by omega)
  rw [hw1]
  by_cases hge : (sortedThumbNames t).length ≤ piC * psC
  · rw [if_pos hge]
    rw [List.drop_eq_nil_of_le (by omega : (sortedThumbNames t).length ≤ (piC * psC).toNat)]
    simp
  · rw [if_neg hge, hw2]
    by_cases hclamp : ((sortedThumbNames t).length : Int) < piC * psC + psC
    · rw [if_pos hclamp, if_pos ⟨hprod, by omega⟩]
      congr 1
      rw [List.take_of_length_le (by rw [List.length_drop]; omega),
        List.take_of_length_le (by rw [List.length_drop]; omega)]
    · rw [if_neg hclamp, if_pos ⟨hprod, by omega⟩]
      have : piC * psC + psC - piC * psC = psC := by omega
      rw [this]

/-- A page whose clamped, non-wrapping start is at or beyond the end of
the sorted list yields the empty record list. -/
theorem buildThumbs_outOfRange_empty (fs : FS) (t : Thumbs) (h : fs.subnails = some t)
    (pi ps : Int)
    (hno : (if pi < 0 then 0 else pi) * (if ps ≤ 0 then 100 else ps) +
        (if ps ≤ 0 then 100 else ps) < 2 ^ 63)
    (hlen : (sortedThumbNames t).length ≤
        ((if pi < 0 then 0 else pi) * (if ps ≤ 0 then 100 else ps)).toNat) :
    buildThumbsJSONPayloadPaged (some fs) pi ps = some [] := by
  rw [buildThumbs_eq_slice fs t h pi ps hno, List.drop_eq_nil_of_le hlen]
  simp

/-- When the clamped product `pageIndex * pageSize` wraps to a negative
Go `int`, the first range check passes (a negative start is below the
list length) and the slice expression `names[start:end]` panics: the
builder reaches no reply. -/
theorem buildThumbs_overflow_none (fs : FS) (t : Thumbs) (h : fs.subnails = some t)
    (pi ps : Int)
    (hneg : wrap64 ((if pi < 0 then 0 else pi) * (if ps ≤ 0 then 100 else ps)) < 0) :
    buildThumbsJSONPayloadPaged (some fs) pi ps = none := by
  simp only [buildThumbsJSONPayloadPaged, h]
  rw [if_neg (not_le.mpr (lt_of_lt_of_le hneg (Int.natCast_nonneg _)))]
  rw [if_neg (fun hand => absurd hand.1 (not_le.mpr hneg))]

/-- C5 (amended): for every MediaThumbList frame the state is unchanged
and the size-check close never fires; a missing payload or unparseable
JSON yields the default page (index 0, size 100); a negative pageIndex
is treated as 0 and a non-positive pageSize as 100; whenever the
clamped Go `int` computation `pageIndex*pageSize (+ pageSize)` does not
overflow, the records are the slice of the lexicographically sorted
permutation of the thumbnail filenames and every page at or beyond the
end of the list yields the empty record list; but when
`pageIndex*pageSize` wraps to a negative `int`, the slice expression
panics and the unrecovered panic kills the process (modelled by
`crash`/`none`), so the reply is not sent. -/
theorem mediaThumbList_paged (env : ConnEnv) (st : ConnState) (len : Nat)
    (payload : Bytes) :
    ((handleTCPMessage env st 7 len payload).st = st ∧
      (handleTCPMessage env st 7 len payload).act ≠ .close) ∧
    (len = 0 →
      handleTCPMessage env st 7 len payload =
        mtlReply st len (buildThumbsJSONPayloadPaged st.fs 0 100)) ∧
    (len ≠ 0 → env.parsePage payload = none →
      handleTCPMessage env st 7 len payload =
        mtlReply st len (buildThumbsJSONPayloadPaged st.fs 0 100)) ∧
    (∀ r : PageReq, len ≠ 0 → env.parsePage payload = some r →
      handleTCPMessage env st 7 len payload =
        mtlReply st len (buildThumbsJSONPayloadPaged st.fs
          (if r.pageIndex ≥ 0 then r.pageIndex else 0)
          (if r.pageSize > 0 then r.pageSize else 100))) ∧
    (∀ fs t, st.fs = some fs → fs.subnails = some t →
      List.Sorted (· ≤ ·) (sortedThumbNames t) ∧
      (sortedThumbNames t).Perm (thumbListNames t) ∧
      (∀ pi ps : Int,
        (if pi < 0 then 0 else pi) * (if ps ≤ 0 then 100 else ps) +
            (if ps ≤ 0 then 100 else ps) < 2 ^ 63 →
        buildThumbsJSONPayloadPaged st.fs pi ps =
          some ((((sortedThumbNames t).drop
              ((if pi < 0 then 0 else pi) * (if ps ≤ 0 then 100 else ps)).toNat).take
            (if ps ≤ 0 then 100 else ps).toNat).map (photoItemOfThumb fs t))) ∧
      (∀ pi ps : Int,
        (if pi < 0 then 0 else pi) * (if ps ≤ 0 then 100 else ps) +
            (if ps ≤ 0 then 100 else ps) < 2 ^ 63 →
        (sortedThumbNames t).length ≤
            ((if pi < 0 then 0 else pi) * (if ps ≤ 0 then 100 else ps)).toNat →
        buildThumbsJSONPayloadPaged st.fs pi ps = some []) ∧
      (∀ pi ps : Int,
        wrap64 ((if pi < 0 then 0 else pi) * (if ps ≤ 0 then 100 else ps)) < 0 →
        buildThumbsJSONPayloadPaged st.fs pi ps = none)) := by
  refine ⟨?_, ?_, ?_, ?_, ?_⟩
  · obtain ⟨o, ho⟩ := handleTCP_msg7_shape env st len payload
    rw [ho]
    cases o <;> simp [mtlReply]
  · intro h
    subst h
    rfl
  · intro h0 hp
    exact handleTCP_msg7_parse_none env st len payload h0 hp
  · intro r h0 hp
    exact handleTCP_msg7_parse_some env st len payload r h0 hp
  · intro fs t hst hsub
    refine ⟨List.sorted_insertionSort _ _, List.perm_insertionSort _ _, ?_, ?_, ?_⟩
    · intro pi ps hno
      rw [hst]
      exact buildThumbs_eq_slice fs t hsub pi ps hno
    · intro pi ps hno hlen
      rw [hst]
      exact buildThumbs_outOfRange_empty fs t hsub pi ps hno hlen
    · intro pi ps hneg
      rw [hst]
      exact buildThumbs_overflow_none fs t hsub pi ps hneg

/-- C5 (counterexample): the claim promises an empty list and an open
connection for every far-beyond pageIndex, but the in-int64-range
request `{"pageIndex": 92233720368547759, "pageSize": 100}` — which
passes both clamps — overflows `start := pageIndex * pageSize` to a
negative Go `int`, slips past the range check, and the slice panics:
the process dies without a reply. -/
theorem mediaThumbList_overflow_crash :
    handleTCPMessage
        ⟨fun _ => none, fun _ => some ⟨92233720368547759, 100⟩, fun _ => ⟨[], none⟩,
          fun _ => true, fun _ => true, fun _ => true⟩
        ⟨"base", "base", some ⟨[], some []⟩⟩ 7 1 [0] =
      ⟨.crash, ⟨"base", "base", some ⟨[], some []⟩⟩, [], 1⟩ ∧
    (0 : Int) ≤ 92233720368547759 ∧ (0 : Int) < 100 ∧
    wrap64 (92233720368547759 * 100) < 0 := by
  exact ⟨by decide, by decide, by decide, by decide⟩

/-- Witness for C5 (amended): the spec §8 malformed request
`{"pageIndex": -5, "pageSize": 0}` is clamped to the defaults and
answered through the builder at page (0, 100). -/
theorem mediaThumbList_paged_witness :
    handleTCPMessage
        ⟨fun _ => none, fun _ => some ⟨-5, 0⟩, fun _ => ⟨[], none⟩, fun _ => true,
          fun _ => true, fun _ => true⟩
        ⟨"base", "base", some ⟨[], some [("tbn-b.jpg", [1]), ("tbn-a.jpg", [2])]⟩⟩ 7 1 [0] =
      mtlReply ⟨"base", "base", some ⟨[], some [("tbn-b.jpg", [1]), ("tbn-a.jpg", [2])]⟩⟩ 1
        (buildThumbsJSONPayloadPaged
          (some ⟨[], some [("tbn-b.jpg", [1]), ("tbn-a.jpg", [2])]⟩) 0 100) := by
  have h := (mediaThumbList_paged
      ⟨fun _ => none, fun _ => some ⟨-5, 0⟩, fun _ => ⟨[], none⟩, fun _ => true,
        fun _ => true, fun _ => true⟩
      ⟨"base", "base", some ⟨[], some [("tbn-b.jpg", [1]), ("tbn-a.jpg", [2])]⟩⟩ 1
      [0]).2.2.2.1 ⟨-5, 0⟩ (by decide) rfl
  simpa using h

/-- One generation-loop iteration, characterized by its
thumbs-independent outcome: skipped entries leave the set unchanged,
a producible destination is added exactly when it is absent. -/
theorem genEntryStep_eq (env : GenEnv) (es : List Entry) (T : Thumbs) (e : Entry) :
    genEntryStep env es T e =
      match genEntryOutcome env es e with
      | none => T
      | some (d, b) => if hasName T d then T else T ++ [(d, b)] := by
  by_cases h1 : e.isDir
  · simp [genEntryStep, genEntryOutcome, h1]
  by_cases h2 : strStartsWith (goToLower e.name) "tbn-"
  · simp [genEntryStep, genEntryOutcome, h1, h2]
  by_cases h3 : goToLower (filepathExt e.name) = ".jpg" ∨
      goToLower (filepathExt e.name) = ".jpeg" ∨ goToLower (filepathExt e.name) = ".png" ∨
      goToLower (filepathExt e.name) = ".heic"
  · cases hdec : (if sniffHEIC e.data then env.convertHEIC e.data else env.decodeImage e.data) with
    | none =>
      by_cases hN : hasName T ("tbn-" ++ e.name) <;>
        simp [genEntryStep, genEntryOutcome, h1, h2, h3, hdec, hN]
    | some tb =>
      by_cases hc : env.createOk ("tbn-" ++ e.name) <;>
        by_cases hN : hasName T ("tbn-" ++ e.name) <;>
          simp [genEntryStep, genEntryOutcome, h1, h2, h3, hdec, hc, hN]
  by_cases h4 : goToLower (filepathExt e.name) = ".mp4" ∨
      goToLower (filepathExt e.name) = ".mov" ∨ goToLower (filepathExt e.name) = ".m4v" ∨
      goToLower (filepathExt e.name) = ".avi" ∨ goToLower (filepathExt e.name) = ".mkv"
  · by_cases hm : es.any fun m =>
        m.name = "." ++ goTrimSuffix e.name (goToLower (filepathExt e.name)) ++ ".created"
    · simp [genEntryStep, genEntryOutcome, h1, h2, h3, h4, hm]
    · cases hv : env.videoThumb e.data with
      | none => simp [genEntryStep, genEntryOutcome, h1, h2, h3, h4, hm, hv]
      | some tb =>
        by_cases hN : hasName T
            ("tbn-" ++ goTrimSuffix e.name (goToLower (filepathExt e.name)) ++ ".jpg") <;>
          simp [genEntryStep, genEntryOutcome, h1, h2, h3, h4, hm, hv, hN]
  · simp [genEntryStep, genEntryOutcome, h1, h2, h3, h4]

/-- If an iteration produces a destination, the entry is a
non-directory source and the destination name follows the image rule
(`tbn-` plus the full name) or the video rule (`tbn-` plus basename
plus `.jpg`). -/
theorem genEntryOutcome_name (env : GenEnv) (es : List Entry) (e : Entry)
    (d : String) (b : Bytes) (h : genEntryOutcome env es e = some (d, b)) :
    e.isDir = false ∧
    ((goToLower (filepathExt e.name) = ".jpg" ∨ goToLower (filepathExt e.name) = ".jpeg" ∨
        goToLower (filepathExt e.name) = ".png" ∨ goToLower (filepathExt e.name) = ".heic") ∧
      d = "tbn-" ++ e.name ∨
     (goToLower (filepathExt e.name) = ".mp4" ∨ goToLower (filepathExt e.name) = ".mov" ∨
        goToLower (filepathExt e.name) = ".m4v" ∨ goToLower (filepathExt e.name) = ".avi" ∨
        goToLower (filepathExt e.name) = ".mkv") ∧
      d = "tbn-" ++ goTrimSuffix e.name (goToLower (filepathExt e.name)) ++ ".jpg") := by
  by_cases h1 : e.isDir
  · simp [genEntryOutcome, h1] at h
  refine ⟨by simpa using h1, ?_⟩
  by_cases h2 : strStartsWith (goToLower e.name) "tbn-"
  · simp [genEntryOutcome, h1, h2] at h
  by_cases h3 : goToLower (filepathExt e.name) = ".jpg" ∨
      goToLower (filepathExt e.name) = ".jpeg" ∨ goToLower (filepathExt e.name) = ".png" ∨
      goToLower (filepathExt e.name) = ".heic"
  · cases hdec : (if sniffHEIC e.data then env.convertHEIC e.data else env.decodeImage e.data) with
    | none => simp [genEntryOutcome, h1, h2, h3, hdec] at h
    | some tb =>
      by_cases hc : env.createOk ("tbn-" ++ e.name)
      · simp [genEntryOutcome, h1, h2, h3, hdec, hc] at h
        exact Or.inl ⟨h3, h.1.symm⟩
      · simp [genEntryOutcome, h1, h2, h3, hdec, hc] at h
  by_cases h4 : goToLower (filepathExt e.name) = ".mp4" ∨
      goToLower (filepathExt e.name) = ".mov" ∨ goToLower (filepathExt e.name) = ".m4v" ∨
      goToLower (filepathExt e.name) = ".avi" ∨ goToLower (filepathExt e.name) = ".mkv"
  · by_cases hm : es.any fun m =>
        m.name = "." ++ goTrimSuffix e.name (goToLower (filepathExt e.name)) ++ ".created"
    · simp [genEntryOutcome, h1, h2, h3, h4, hm] at h
    · cases hv : env.videoThumb e.data with
      | none => simp [genEntryOutcome, h1, h2, h3, h4, hm, hv] at h
      | some tb =>
        simp [genEntryOutcome, h1, h2, h3, h4, hm, hv] at h
        exact Or.inr ⟨h4, h.1.symm⟩
  · simp [genEntryOutcome, h1, h2, h3, h4] at h

/-- An iteration never removes a thumbnail. -/
theorem mem_genEntryStep (env : GenEnv) (es : List Entry) (T : Thumbs) (e : Entry)
    (x : String × Bytes) (hx : x ∈ T) : x ∈ genEntryStep env es T e := by
  rw [genEntryStep_eq]
  rcases genEntryOutcome env es e with _ | ⟨d, b⟩
  · exact hx
  · by_cases hN : hasName T d
    · simpa [hN] using hx
    · simp only [hN, if_false]
      exact List.mem_append_left _ hx

/-- An iteration never makes a present destination absent. -/
theorem hasName_genEntryStep (env : GenEnv) (es : List Entry) (T : Thumbs) (e : Entry)
    (d : String) (h : hasName T d = true) : hasName (genEntryStep env es T e) d = true := by
  rw [genEntryStep_eq]
  rcases genEntryOutcome env es e with _ | ⟨d', b⟩
  · exact h
  · by_cases hN : hasName T d'
    · simpa [hN] using h
    · simp only [hN, if_false]
      simp [hasName, List.any_append] at h ⊢
      exact Or.inl h

/-- After an iteration, its own producible destination is present. -/
theorem outcome_hasName_step (env : GenEnv) (es : List Entry) (T : Thumbs) (e : Entry)
    (d : String) (b : Bytes) (h : genEntryOutcome env es e = some (d, b)) :
    hasName (genEntryStep env es T e) d = true := by
  rw [genEntryStep_eq, h]
  show hasName (if hasName T d = true then T else T ++ [(d, b)]) d = true
  by_cases hN : hasName T d
  · rw [if_pos hN]
    exact hN
  · rw [if_neg hN]
    simp [hasName, List.any_append]

/-- A full sweep never removes a thumbnail. -/
theorem mem_foldl_genEntryStep (env : GenEnv) (es : List Entry) (l : List Entry) :
    ∀ (T : Thumbs) (x : String × Bytes), x ∈ T → x ∈ l.foldl (genEntryStep env es) T := by
  induction l with
  | nil => intro T x hx; exact hx
  | cons e l ih => intro T x hx; exact ih _ x (mem_genEntryStep env es T e x hx)

/-- A full sweep never makes a present destination absent. -/
theorem hasName_foldl_genEntryStep (env : GenEnv) (es : List Entry) (l : List Entry) :
    ∀ (T : Thumbs) (d : String), hasName T d = true →
      hasName (l.foldl (genEntryStep env es) T) d = true := by
  induction l with
  | nil => intro T d h; exact h
  | cons e l ih => intro T d h; exact ih _ d (hasName_genEntryStep env es T e d h)

/-- After a full sweep every producible destination of a swept entry is
present. -/
theorem outcome_hasName_foldl (env : GenEnv) (es : List Entry) (l : List Entry) :
    ∀ (T : Thumbs) (e : Entry) (d : String) (b : Bytes), e ∈ l →
      genEntryOutcome env es e = some (d, b) →
      hasName (l.foldl (genEntryStep env es) T) d = true := by
  induction l with
  | nil => intro T e d b he; exact absurd he (List.not_mem_nil e)
  | cons e0 l ih =>
    intro T e d b he h
    rcases List.mem_cons.mp he with rfl | he'
    · exact hasName_foldl_genEntryStep env es l _ d (outcome_hasName_step env es T e d b h)
    · exact ih _ e d b he' h

/-- A sweep whose producible destinations are all already present is
the identity. -/
theorem foldl_genEntryStep_fixed (env : GenEnv) (es : List Entry) (l : List Entry) :
    ∀ T : Thumbs,
      (∀ e ∈ l, ∀ d b, genEntryOutcome env es e = some (d, b) → hasName T d = true) →
      l.foldl (genEntryStep env es) T = T := by
  induction l with
  | nil => intro T _; rfl
  | cons e l ih =>
    intro T h
    have hstep : genEntryStep env es T e = T := by
      rw [genEntryStep_eq]
      rcases ho : genEntryOutcome env es e with _ | ⟨d, b⟩
      · rfl
      · show (if hasName T d = true then T else T ++ [(d, b)]) = T
        rw [if_pos (h e (List.mem_cons_self e l) d b ho)]
    rw [List.foldl_cons, hstep]
    exact ih T fun e' he' => h e' (List.mem_cons_of_mem _ he')

/-- Every thumbnail present after a sweep was already present or stems
from a swept entry's outcome. -/
theorem mem_foldl_genEntryStep_src (env : GenEnv) (es : List Entry) (l : List Entry) :
    ∀ (T : Thumbs) (x : String × Bytes), x ∈ l.foldl (genEntryStep env es) T →
      x ∈ T ∨ ∃ e, e ∈ l ∧ genEntryOutcome env es e = some x := by
  induction l with
  | nil => intro T x hx; exact Or.inl hx
  | cons e l ih =>
    intro T x hx
    rcases ih _ x hx with hT | ⟨e', he', ho⟩
    · rw [genEntryStep_eq] at hT
      rcases ho2 : genEntryOutcome env es e with _ | ⟨d, b⟩
      · rw [ho2] at hT
        exact Or.inl hT
      · rw [ho2] at hT
        replace hT : x ∈ (if hasName T d = true then T else T ++ [(d, b)]) := hT
        by_cases hN : hasName T d
        · rw [if_pos hN] at hT
          exact Or.inl hT
        · rw [if_neg hN] at hT
          rcases List.mem_append.mp hT with hL | hR
          · exact Or.inl hL
          · have hx2 : x = (d, b) := by simpa using hR
            exact Or.inr ⟨e, List.mem_cons_self e l, hx2 ▸ ho2⟩
    · exact Or.inr ⟨e', List.mem_cons_of_mem _ he', ho⟩

/-- C7: thumbnail generation is idempotent — over an unchanged
directory (same entries, same collaborator behaviour) a second pass
returns the filesystem of the first pass unchanged: no new file is
written and no existing file is modified; and any entry whose image and
video destination names are both already present is skipped without
touching the thumbnail set. -/
theorem generateThumbnails_idempotent (env : GenEnv) (fs : FS) :
    generateThumbnails env (generateThumbnails env fs) = generateThumbnails env fs ∧
    (∀ (es : List Entry) (T : Thumbs) (e : Entry),
      hasName T ("tbn-" ++ e.name) = true →
      hasName T ("tbn-" ++ goTrimSuffix e.name (goToLower (filepathExt e.name)) ++ ".jpg")
        = true →
      genEntryStep env es T e = T) := by
  constructor
  · by_cases hm : env.mkdirOk
    · show generateThumbnails env (generateThumbnails env fs) = generateThumbnails env fs
      unfold generateThumbnails
      simp only [hm, if_true]
      have hfix : fs.entries.foldl (genEntryStep env fs.entries)
          (fs.entries.foldl (genEntryStep env fs.entries) (fs.subnails.getD [])) =
          fs.entries.foldl (genEntryStep env fs.entries) (fs.subnails.getD []) :=
        foldl_genEntryStep_fixed env fs.entries fs.entries _
          (fun e he d b ho =>
            outcome_hasName_foldl env fs.entries fs.entries (fs.subnails.getD []) e d b he ho)
      simp only [Option.getD_some]
      rw [hfix]
    · simp [generateThumbnails, hm]
  · intro es T e hImg hVid
    rw [genEntryStep_eq]
    rcases ho : genEntryOutcome env es e with _ | ⟨d, b⟩
    · rfl
    · show (if hasName T d = true then T else T ++ [(d, b)]) = T
      rcases (genEntryOutcome_name env es e d b ho).2 with ⟨-, rfl⟩ | ⟨-, rfl⟩
      · rw [if_pos hImg]
      · rw [if_pos hVid]

/-- Witness for C7's skip clause: an entry whose two candidate
destinations are both present leaves the set unchanged (the
idempotence equation itself has no hypothesis). -/
theorem generateThumbnails_idempotent_witness :
    genEntryStep ⟨fun _ => some [9], fun _ => some [7], fun _ => some [5], fun _ => true, true⟩
        [] [("tbn-a.jpg", [1]), ("tbn-a.jpg", [2])] ⟨"a.jpg", false, []⟩ =
      [("tbn-a.jpg", [1]), ("tbn-a.jpg", [2])] :=
  (generateThumbnails_idempotent
      ⟨fun _ => some [9], fun _ => some [7], fun _ => some [5], fun _ => true, true⟩
      ⟨[], none⟩).2 [] [("tbn-a.jpg", [1]), ("tbn-a.jpg", [2])] ⟨"a.jpg", false, []⟩
    (by decide) (by decide)

/-- C4 (amended): thumbnails are produced under
`<activeDir>/subnails/` (not `thumbnails/`); an image source (jpg,
jpeg, png or heic — a HEIC source included) yields a thumbnail named
`tbn-<name>` keeping the source filename's extension, so a `.heic`
source yields a name ending in `.heic`, not `.jpg`; a video source
yields `tbn-<basename>.jpg`. -/
theorem thumbnail_naming (env : GenEnv) (fs : FS) :
    (∀ d, thumbDirPath d = d ++ "/" ++ "subnails") ∧
    (∀ x : String × Bytes, x ∈ (generateThumbnails env fs).subnails.getD [] →
      x ∈ fs.subnails.getD [] ∨
      ∃ e, e ∈ fs.entries ∧ e.isDir = false ∧
        ((goToLower (filepathExt e.name) = ".jpg" ∨ goToLower (filepathExt e.name) = ".jpeg" ∨
            goToLower (filepathExt e.name) = ".png" ∨
            goToLower (filepathExt e.name) = ".heic") ∧
          x.1 = "tbn-" ++ e.name ∨
         (goToLower (filepathExt e.name) = ".mp4" ∨ goToLower (filepathExt e.name) = ".mov" ∨
            goToLower (filepathExt e.name) = ".m4v" ∨ goToLower (filepathExt e.name) = ".avi" ∨
            goToLower (filepathExt e.name) = ".mkv") ∧
          x.1 = "tbn-" ++ goTrimSuffix e.name (goToLower (filepathExt e.name)) ++ ".jpg")) := by
  refine ⟨fun d => rfl, ?_⟩
  intro x hx
  by_cases hm : env.mkdirOk
  · rw [generateThumbnails, if_pos hm] at hx
    simp only [Option.getD_some] at hx
    rcases mem_foldl_genEntryStep_src env fs.entries fs.entries _ x hx with hT | ⟨e, he, ho⟩
    · exact Or.inl hT
    · obtain ⟨d, b⟩ := x
      have hn := genEntryOutcome_name env fs.entries e d b ho
      exact Or.inr ⟨e, he, hn.1, hn.2⟩
  · rw [generateThumbnails, if_neg hm] at hx
    exact Or.inl hx

/-- Witness for C4 (amended): a HEIC source whose thumbnail keeps the
`.heic` extension satisfies the naming disjunction. -/
theorem thumbnail_naming_witness :
    ("tbn-a.heic", ([7] : Bytes)) ∈ ([] : Thumbs) ∨
      ∃ e, e ∈ [(⟨"a.heic", false, strBytes "xxxxftypheic"⟩ : Entry)] ∧ e.isDir = false ∧
        ((goToLower (filepathExt e.name) = ".jpg" ∨ goToLower (filepathExt e.name) = ".jpeg" ∨
            goToLower (filepathExt e.name) = ".png" ∨
            goToLower (filepathExt e.name) = ".heic") ∧
          "tbn-a.heic" = "tbn-" ++ e.name ∨
         (goToLower (filepathExt e.name) = ".mp4" ∨ goToLower (filepathExt e.name) = ".mov" ∨
            goToLower (filepathExt e.name) = ".m4v" ∨ goToLower (filepathExt e.name) = ".avi" ∨
            goToLower (filepathExt e.name) = ".mkv") ∧
          "tbn-a.heic" = "tbn-" ++ goTrimSuffix e.name (goToLower (filepathExt e.name)) ++ ".jpg") :=
  (thumbnail_naming ⟨fun _ => none, fun _ => some [7], fun _ => none, fun _ => true, true⟩
    ⟨[⟨"a.heic", false, strBytes "xxxxftypheic"⟩], some []⟩).2 ("tbn-a.heic", [7]) (by decide)

/-- C4 (counterexample): a HEIC source named `a.heic` produces the
thumbnail `tbn-a.heic` — a name that does not end in `.jpg` — and the
thumbnail directory is `subnails`, not `thumbnails`. -/
theorem thumbnail_naming_counterexample :
    (generateThumbnails ⟨fun _ => none, fun _ => some [7], fun _ => none, fun _ => true, true⟩
        ⟨[⟨"a.heic", false, strBytes "xxxxftypheic"⟩], some []⟩).subnails =
      some [("tbn-a.heic", [7])] ∧
    goEndsWith "tbn-a.heic" ".jpg" = false ∧
    thumbDirPath "d" ≠ goJoin "d" "thumbnails" := by
  refine ⟨?_, ?_, ?_⟩ <;> decide

/-- C1 (counterexample): it is not the case that every reachable
scheduler state has at most one generation pass in flight — two
sync-complete deliveries spawn two concurrently live passes, because
the spawn path (`go generateThumbnails`) consults no lock. -/
theorem generation_no_mutual_exclusion : ¬ ∀ ps, GenReach ps → ps.length ≤ 1 := by
  intro h
  have h2 := h [⟨"a", 1⟩, ⟨"b", 1⟩]
    (GenReach.step (GenReach.step GenReach.init (GenStep.spawn [] "a" 1))
      (GenStep.spawn [⟨"a", 1⟩] "b" 1))
  simp at h2

/-- C1 (amended): generation passes are unsynchronized and
uncancellable — the sync-complete handler always answers with
`closeAndGen recvDir` (spawning a pass); spawning is never blocked by
an in-flight pass; a state with two live passes is reachable; no
scheduler transition terminates another unfinished pass (it survives
every transition, at most advancing by one entry of its own); and a
pass never removes an already-written thumbnail, so cancelled or
overlapping passes cannot corrupt previously written files. -/
theorem generation_unsynchronized :
    (∀ (env : ConnEnv) (st : ConnState) (len : Nat) (payload : Bytes),
      (handleTCPMessage env st 3 len payload).act = .closeAndGen st.recvDir) ∧
    (∀ (ps : List GenPass) (d : String) (n : Nat), GenStep ps (ps ++ [⟨d, n⟩])) ∧
    (∃ ps, GenReach ps ∧ 2 ≤ ps.length) ∧
    (∀ ps ps', GenStep ps ps' → ∀ p : GenPass, p ∈ ps → 0 < p.remaining →
      p ∈ ps' ∨ (⟨p.dir, p.remaining - 1⟩ : GenPass) ∈ ps') ∧
    (∀ (env : GenEnv) (fs : FS) (x : String × Bytes),
      x ∈ fs.subnails.getD [] → x ∈ (generateThumbnails env fs).subnails.getD []) := by
  refine ⟨fun env st len payload => rfl, fun ps d n => GenStep.spawn ps d n,
    ⟨[⟨"a", 1⟩, ⟨"b", 1⟩],
      GenReach.step (GenReach.step GenReach.init (GenStep.spawn [] "a" 1))
        (GenStep.spawn [⟨"a", 1⟩] "b" 1), by simp⟩, ?_, ?_⟩
  · intro ps ps' hstep p hp hrem
    cases hstep with
    | spawn ps d n => exact Or.inl (List.mem_append_left _ hp)
    | work pre d n post =>
      simp only [List.mem_append, List.mem_cons] at hp ⊢
      rcases hp with hpre | hmid | hpost
      · tauto
      · subst hmid
        simp
      · tauto
    | finish pre d post =>
      simp only [List.mem_append, List.mem_cons] at hp ⊢
      rcases hp with hpre | hmid | hpost
      · tauto
      · rw [hmid] at hrem
        simp at hrem
      · tauto
  · intro env fs x hx
    by_cases hm : env.mkdirOk
    · rw [generateThumbnails, if_pos hm]
      simp only [Option.getD_some]
      exact mem_foldl_genEntryStep env fs.entries fs.entries _ x hx
    · rw [generateThumbnails, if_neg hm]
      exact hx

/-- Witness for C1 (amended): a pass with work left survives the spawn
of a second pass. -/
theorem generation_unsynchronized_witness :
    (⟨"a", 1⟩ : GenPass) ∈ ([⟨"a", 1⟩, ⟨"b", 2⟩] : List GenPass) ∨
      (⟨"a", 0⟩ : GenPass) ∈ ([⟨"a", 1⟩, ⟨"b", 2⟩] : List GenPass) :=
  generation_unsynchronized.2.2.2.1 [⟨"a", 1⟩] [⟨"a", 1⟩, ⟨"b", 2⟩]
    (GenStep.spawn [⟨"a", 1⟩] "b" 2) ⟨"a", 1⟩ (by decide) (by decide)

/-- Replacing the entry of a present key is visible to lookup. -/
theorem lookup_map_replace (m : TransferMap) (id : String) (t t' : ChunkedTransfer)
    (h : m.lookup id = some t) :
    (m.map fun p => if p.1 = id then (id, t') else p).lookup id = some t' := by
  induction m with
  | nil => simp at h
  | cons q m ih =>
    obtain ⟨k, v⟩ := q
    by_cases hq : k = id
    · simp [List.lookup_cons, hq]
    · have hk : (id == k) = false := beq_eq_false_iff_ne.mpr fun hEq => hq hEq.symm
      simp only [List.lookup_cons, hk] at h
      simp only [List.map_cons, hq, if_false, List.lookup_cons, hk]
      exact ih h

/-- Delivering decodable Data messages for a live transfer appends each
decoded payload in arrival order, leaves the directory untouched, and
ACKs every chunk with its index. -/
theorem chunkDataList_spec (id : String) :
    ∀ (chunks : List (Nat × String)) (decoded : List Bytes) (m : TransferMap)
      (files : List Entry) (t : ChunkedTransfer),
      chunks.map (fun c => goBase64Decode c.2) = decoded.map some →
      m.lookup id = some t →
      (chunkDataList m files id chunks).1.lookup id =
        some { t with tempData := t.tempData ++ decoded.flatten,
                      receivedChunks := t.receivedChunks + chunks.length } ∧
      (chunkDataList m files id chunks).2.1 = files ∧
      (chunkDataList m files id chunks).2.2 =
        chunks.map fun c => some ("OK:CHUNK:" ++ toString c.1) := by
  intro chunks
  induction chunks with
  | nil =>
    intro decoded m files t hdec hlook
    cases decoded with
    | nil => exact ⟨by simpa using hlook, rfl, rfl⟩
    | cons b ds => simp at hdec
  | cons c rest ih =>
    intro decoded m files t hdec hlook
    cases decoded with
    | nil => simp at hdec
    | cons b ds =>
      simp only [List.map_cons, List.cons.injEq] at hdec
      obtain ⟨hd, tl⟩ := hdec
      have ho : chunkData m files id c.1 c.2 =
          ⟨m.map (fun p => if p.1 = id then
              (id, { t with tempData := t.tempData ++ b,
                            receivedChunks := t.receivedChunks + 1 }) else p),
            files, some ("OK:CHUNK:" ++ toString c.1), false⟩ := by
        simp [chunkData, hlook, hd]
      have hlook' := lookup_map_replace m id t
        { t with tempData := t.tempData ++ b, receivedChunks := t.receivedChunks + 1 } hlook
      have hrest := ih ds _ files _ tl hlook'
      refine ⟨?_, ?_, ?_⟩
      · simp only [chunkDataList, ho]
        rw [hrest.1]
        simp [List.append_assoc, Nat.add_assoc, Nat.add_comm, Nat.add_left_comm]
      · simp only [chunkDataList, ho]
        exact hrest.2.1
      · simp only [chunkDataList, ho, List.map_cons]
        rw [hrest.2.2]

/-- C2 (spec-modelled): the chunked-video sub-protocol on one
connection — a Start frame for a fresh id is ACKed `"OK:START"`; each
Data frame whose base64 payload decodes is appended and ACKed
`"OK:CHUNK:<chunkIndex>"`; the Complete frame finalizes the file under
the active directory as `<id>.mp4` (the default extension, the id not
already carrying it) containing the concatenation of the decoded
payloads in arrival order, and is ACKed `"OK:<id>"`; none of these
messages closes the connection. -/
theorem chunkedUpload_protocol (m : TransferMap) (files : List Entry) (id : String)
    (ts cs tc dt : Nat) (chunks : List (Nat × String)) (decoded : List Bytes)
    (_hfresh : m.lookup id = none)
    (hdec : chunks.map (fun c => goBase64Decode c.2) = decoded.map some)
    (hext : goToLower (filepathExt id) ≠ ".mp4") :
    (chunkStart m files id ts cs tc).ack = some "OK:START" ∧
    (chunkStart m files id ts cs tc).closes = false ∧
    ((chunkDataList (chunkStart m files id ts cs tc).transfers files id chunks).2.2 =
      chunks.map fun c => some ("OK:CHUNK:" ++ toString c.1)) ∧
    ((chunkComplete (chunkDataList (chunkStart m files id ts cs tc).transfers files id chunks).1
        (chunkDataList (chunkStart m files id ts cs tc).transfers files id chunks).2.1 id
        dt).ack = some ("OK:" ++ id)) ∧
    ((chunkComplete (chunkDataList (chunkStart m files id ts cs tc).transfers files id chunks).1
        (chunkDataList (chunkStart m files id ts cs tc).transfers files id chunks).2.1 id
        dt).closes = false) ∧
    getFileEntry
        (chunkComplete (chunkDataList (chunkStart m files id ts cs tc).transfers files id chunks).1
          (chunkDataList (chunkStart m files id ts cs tc).transfers files id chunks).2.1 id
          dt).files (id ++ ".mp4")
      = some decoded.flatten := by
  have hlook0 : (chunkStart m files id ts cs tc).transfers.lookup id =
      some ⟨id, ts, cs, tc, 0, []⟩ := by
    simp [chunkStart, List.lookup_cons]
  have hspec := chunkDataList_spec id chunks decoded _ files _ hdec hlook0
  refine ⟨rfl, rfl, hspec.2.2, ?_, ?_, ?_⟩
  · simp [chunkComplete, hspec.1, hext]
  · simp [chunkComplete, hspec.1, hext]
  · simp [chunkComplete, hspec.1, hext, getFileEntry_setFileEntries]

/-- Witness for C2: the spec §8 chunked-video scenario — id `"vid1"`,
chunks `base64("AA")`, `base64("BB")` — is ACKed `OK:START`,
`OK:CHUNK:0`, `OK:CHUNK:1`, `OK:vid1`, and finalizes `vid1.mp4` with
bytes `"AABB"`. -/
theorem chunkedUpload_protocol_witness :
    (chunkStart [] [] "vid1" 4 2 2).ack = some "OK:START" ∧
    ((chunkDataList (chunkStart [] [] "vid1" 4 2 2).transfers [] "vid1"
        [(0, "QUE="), (1, "QkI=")]).2.2 =
      [(0, "QUE="), (1, "QkI=")].map fun c => some ("OK:CHUNK:" ++ toString c.1)) ∧
    ((chunkComplete
        (chunkDataList (chunkStart [] [] "vid1" 4 2 2).transfers [] "vid1"
          [(0, "QUE="), (1, "QkI=")]).1
        (chunkDataList (chunkStart [] [] "vid1" 4 2 2).transfers [] "vid1"
          [(0, "QUE="), (1, "QkI=")]).2.1 "vid1" 2).ack = some ("OK:" ++ "vid1")) ∧
    getFileEntry
        (chunkComplete
          (chunkDataList (chunkStart [] [] "vid1" 4 2 2).transfers [] "vid1"
            [(0, "QUE="), (1, "QkI=")]).1
          (chunkDataList (chunkStart [] [] "vid1" 4 2 2).transfers [] "vid1"
            [(0, "QUE="), (1, "QkI=")]).2.1 "vid1" 2).files ("vid1" ++ ".mp4")
      = some ([[65, 65], [66, 66]] : List Bytes).flatten := by
  have h := chunkedUpload_protocol [] [] "vid1" 4 2 2 2 [(0, "QUE="), (1, "QkI=")]
    [[65, 65], [66, 66]] rfl (by decide) (by decide)
  exact ⟨h.1, h.2.2.1, h.2.2.2.1, h.2.2.2.2.2⟩

end PhotoSync
